import Mathlib

/-!
# Verification of the repository context-assembly engine

Shallow embedding of `app/repo_processor.py` (with the error behaviour of
`app/github_client.py`'s fetch functions) and proofs about the claims of the
specification.

Modelling conventions:
* Python `str` is Lean `String`; Python `len` is the number of code points,
  matching `String.length` (= `s.data.length`).
* `PurePosixPath(p).parts` is modelled by splitting on `'/'` and discarding
  empty and `"."` components, which agrees with `pathlib` on the relative
  POSIX paths that a git tree listing produces.
* Python's case mappings are modelled with the ASCII `Char.toLower`/
  `Char.toUpper` (all fixed string sets in the program are ASCII).
* Python integers are `Int` where a value can go negative (scores) and `Nat`
  for sizes, counts and budgets.  In the assembly loop `remaining` is a `Nat`:
  the source computes it as a possibly-negative `int`, but it is only compared
  with `> 500` and sliced with after the guard succeeded, so truncated
  subtraction is observationally equal.
* Python's stable `list.sort(key=..., reverse=True)` is modelled by
  `List.insertionSort` with the reflexive-total relation "key not smaller":
  a stable sort is uniquely determined by the key order and the input order,
  so any stable algorithm is a faithful model.
* The asynchronous fetch fan-out is modelled by oracle functions for the two
  network calls; `get_file_commit_info` can fail (only) with the rate-limit
  error, which aborts the whole batch, so enrichment lives in
  `Except GitHubClientError`.
-/

set_option maxRecDepth 8000

namespace RepoProc

/-! ## Python string primitives -/

/-- Python `s.split(sep)` for a single-character separator (keeps empty
pieces; `"".split(sep) = [""]`). -/
def splitChar (sep : Char) : List Char → List (List Char)
  | [] => [[]]
  | c :: cs =>
    if c = sep then [] :: splitChar sep cs
    else
      match splitChar sep cs with
      | h :: t => (c :: h) :: t
      | [] => [[c]]

/-- Python `s.split(sep)` on strings. -/
def pySplit (sep : Char) (s : String) : List String :=
  (splitChar sep s.data).map String.mk

/-- Python `s.lower()` (ASCII model). -/
def pyLower (s : String) : String := String.mk (s.data.map Char.toLower)

/-- Python `s.upper()` (ASCII model). -/
def pyUpper (s : String) : String := String.mk (s.data.map Char.toUpper)

/-- Python `s.startswith(p)`. -/
def pyStartsWith (s p : String) : Bool := decide (p.data <+: s.data)

/-- Python `s.endswith(p)`. -/
def pyEndsWith (s p : String) : Bool := decide (p.data <:+ s.data)

/-- Python `sub in s` (substring test). -/
def pyContains (s sub : String) : Bool := decide (sub.data <:+: s.data)

/-- Python `s[:n]` for `0 ≤ n`. -/
def pyTake (s : String) (n : Nat) : String := String.mk (s.data.take n)

/-- Python `s.rstrip(c)` for a single-character strip set. -/
def pyRstrip (s : String) (c : Char) : String :=
  String.mk ((s.data.reverse.dropWhile (· = c)).reverse)

/-- Python `s.count(c)` for a single character. -/
def pyCount (s : String) (c : Char) : Nat := s.data.count c

/-- Python `sep.join(parts)`. -/
def pyJoin (sep : String) : List String → String
  | [] => ""
  | [x] => x
  | x :: y :: xs => x ++ sep ++ pyJoin sep (y :: xs)

/-- Python `"  " * n`. -/
def pyIndent (n : Nat) : String := String.mk (List.replicate (2 * n) ' ')

/-- Code-point lexicographic comparison, as Python compares strings. -/
def charListLe : List Char → List Char → Bool
  | [], _ => true
  | _ :: _, [] => false
  | a :: as, b :: bs => if a = b then charListLe as bs else decide (a < b)

/-- Python `s <= t` on strings. -/
def strLeb (s t : String) : Bool := charListLe s.data t.data

/-- Python `sorted(l)` on strings (stable, but equal strings are identical). -/
def sortStrings (l : List String) : List String :=
  l.insertionSort (fun a b => strLeb a b = true)

/-- Index of the last `'.'` in a string, if any (Python `s.rfind('.')`
restricted to the found case). -/
def lastDotIdx (s : String) : Option Nat :=
  match s.data.reverse.findIdx? (· = '.') with
  | none => none
  | some r => some (s.data.length - 1 - r)

/-- `PurePosixPath(name).suffix`: the final extension including the dot, empty
when the name has no dot strictly inside it. -/
def suffixOf (name : String) : String :=
  match lastDotIdx name with
  | none => ""
  | some i =>
    if 0 < i ∧ i < name.data.length - 1 then String.mk (name.data.drop i) else ""

/-- `PurePosixPath(name).stem`: the name with its final extension removed. -/
def stemOf (name : String) : String :=
  match lastDotIdx name with
  | none => name
  | some i =>
    if 0 < i ∧ i < name.data.length - 1 then String.mk (name.data.take i) else name

/-! ## Data model (`RepoFile` from `app/github_client.py`) -/

/-- The `RepoFile` dataclass.  `download_url` is irrelevant to the context
assembly (the content fetch is modelled as an oracle) and is omitted;
`size` is a `Nat` since git blob sizes are non-negative. -/
structure RepoFile where
  path : String
  size : Nat
  content : Option String := none
  last_commit_timestamp : Option String := none
  commit_count : Option Nat := none
  deriving DecidableEq, Repr

/-- The only error `get_file_commit_info` raises is the rate-limit
`GitHubClientError` (HTTP 403). -/
inductive GitHubClientError where
  | rateLimited
  deriving DecidableEq, Repr

/-! ## Constant sets from `app/repo_processor.py` -/

def MAX_CONTEXT_CHARS : Nat := 80000
def MAX_FILE_CHARS : Nat := 15000
def MAX_FILES_TO_FETCH : Nat := 40

def SKIP_DIRECTORIES : List String :=
  ["node_modules", ".git", "vendor", "dist", "build", "__pycache__",
   ".next", ".nuxt", ".tox", ".mypy_cache", ".pytest_cache", ".ruff_cache",
   "venv", ".venv", "env", ".env", "eggs", ".eggs", "bower_components",
   "jspm_packages", ".gradle", ".idea", ".vscode", ".vs", "target",
   "out", "coverage", ".nyc_output", ".cache", "tmp", "temp"]

def SKIP_EXTENSIONS : List String :=
  [".png", ".jpg", ".jpeg", ".gif", ".bmp", ".ico", ".svg", ".webp",
   ".mp3", ".mp4", ".avi", ".mov", ".wav", ".flac",
   ".zip", ".tar", ".gz", ".bz2", ".xz", ".rar", ".7z",
   ".woff", ".woff2", ".ttf", ".eot", ".otf",
   ".pdf", ".doc", ".docx", ".xls", ".xlsx", ".ppt",
   ".exe", ".dll", ".so", ".dylib", ".bin", ".o", ".a", ".class",
   ".pyc", ".pyo", ".wasm", ".map",
   ".lock", ".sum",
   ".min.js", ".min.css", ".bundle.js",
   ".DS_Store"]

def SKIP_FILENAMES : List String :=
  ["package-lock.json", "yarn.lock", "pnpm-lock.yaml", "Pipfile.lock",
   "poetry.lock", "composer.lock", "Gemfile.lock", "Cargo.lock",
   "go.sum", "bun.lockb",
   ".DS_Store", "Thumbs.db",
   ".gitattributes"]

def HIGH_PRIORITY_FILENAMES : List String :=
  ["README.md", "README.rst", "README.txt", "README",
   "package.json", "pyproject.toml", "setup.py", "setup.cfg",
   "Cargo.toml", "go.mod", "Gemfile", "build.gradle", "pom.xml",
   "composer.json", "mix.exs", "Makefile", "CMakeLists.txt",
   "Dockerfile", "docker-compose.yml", "docker-compose.yaml",
   ".env.example", "requirements.txt"]

def MEDIUM_PRIORITY_FILENAMES : List String :=
  ["tsconfig.json", "webpack.config.js", "vite.config.ts", "vite.config.js",
   "rollup.config.js", "babel.config.js", ".babelrc",
   "jest.config.js", "jest.config.ts", "vitest.config.ts",
   "tox.ini", "pytest.ini", "conftest.py",
   ".github/workflows", "Procfile", "app.yaml", "vercel.json",
   "netlify.toml", "fly.toml",
   "CONTRIBUTING.md", "CHANGELOG.md", "LICENSE"]

def CONFIG_EXTENSIONS : List String :=
  [".toml", ".yaml", ".yml", ".json", ".ini", ".cfg", ".conf"]

def SOURCE_EXTENSIONS : List String :=
  [".py", ".js", ".ts", ".jsx", ".tsx", ".go", ".rs", ".rb", ".java",
   ".kt", ".cs", ".cpp", ".c", ".h", ".hpp", ".swift", ".m",
   ".php", ".ex", ".exs", ".erl", ".hs", ".lua", ".r", ".scala",
   ".clj", ".sh", ".bash", ".zsh", ".sql", ".graphql", ".proto",
   ".vue", ".svelte", ".astro", ".html", ".css", ".scss", ".less"]

/-- Entry-point stems from `_score_file`. -/
def ENTRY_NAMES : List String :=
  ["main", "app", "index", "server", "cli", "__main__", "mod"]

/-! ## Classifier (`_is_in_skip_directory` .. `_get_extension`) -/

/-- `PurePosixPath(path).parts` for relative POSIX paths: the non-empty,
non-`"."` slash-separated components. -/
def pathParts (path : String) : List String :=
  (pySplit '/' path).filter (fun s => !(s = "") && !(s = "."))

def _is_in_skip_directory (path : String) : Bool :=
  (pathParts path).any (fun part => SKIP_DIRECTORIES.contains part)

def _has_skip_extension (path : String) : Bool :=
  SKIP_EXTENSIONS.any (fun ext => pyEndsWith (pyLower path) ext)

def _get_filename (path : String) : String :=
  ((pathParts path).getLast?).getD ""

def _get_extension (path : String) : String :=
  pyLower (suffixOf (_get_filename path))

/-! ## Priority scorer (`_score_file`)

The source computes the score by sequential updates to a local variable; the
embedding names the four summands.  Two statements of the source are
deliberately without effect and are modelled as such: line 112 evaluates
`score + 50` without storing it, and the `if "README.md" in name and
depth == 2:` branch only executes `pass`. -/

/-- The exclusive tier chain of `_score_file` (lines 100-112). -/
def tierOf (path : String) : Int :=
  let name := _get_filename path
  let ext := _get_extension path
  if pyStartsWith (pyUpper name) "README" then 1000
  else if name ∈ HIGH_PRIORITY_FILENAMES then 800
  else if name ∈ MEDIUM_PRIORITY_FILENAMES ∨ path ∈ MEDIUM_PRIORITY_FILENAMES then 500
  else if ext ∈ CONFIG_EXTENSIONS then 200
  else if ext ∈ SOURCE_EXTENSIONS then
    -- line 112 of the source reads `score + 50` and discards the result,
    -- so the branch below contributes nothing to the returned tier
    let base : Int := 100
    let _discarded := if pyContains (pyLower name) "test" then base + 50 else base
    base
  else 0

/-- Size adjustment of `_score_file` (lines 120-125). -/
def sizeAdj (size : Nat) : Int :=
  if size < 2000 then 30
  else if size < 5000 then 15
  else if size > 50000 then -50
  else 0

/-- Entry-point bonus of `_score_file` (lines 128-131). -/
def entryBonus (name : String) : Int :=
  if pyLower (stemOf name) ∈ ENTRY_NAMES then 300 else 0

def _score_file (file : RepoFile) : Int :=
  tierOf file.path
    - (pathParts file.path).length * 500
    + sizeAdj file.size
    + entryBonus (_get_filename file.path)

/-! ## Filter pipeline (`filter_files`) -/

/-- The per-file exclusion test of `filter_files` (kept files). -/
def keepFile (f : RepoFile) : Bool :=
  !(_is_in_skip_directory f.path)
  && !(_has_skip_extension f.path)
  && !(SKIP_FILENAMES.contains (_get_filename f.path))
  && !(f.size > 500000)

/-- The descending-score relation of the stable sort in `filter_files`. -/
def scoreGe (a b : RepoFile) : Prop := _score_file b ≤ _score_file a

instance : DecidableRel scoreGe := fun a b => Int.decLe _ _

/-- `filter_files`: drop excluded files, stable-sort the rest by descending
score (Python's `list.sort(key=_score_file, reverse=True)` is stable). -/
def filter_files (files : List RepoFile) : List RepoFile :=
  (files.filter keepFile).insertionSort scoreGe

/-! ## Tree renderer (`_build_tree_full`, `_build_tree_summary`,
`build_directory_tree`) -/

/-- One rendered line of the full tree: indentation proportional to depth,
then the last path component (directories keep their trailing slash). -/
def renderEntry (entry : String) : String :=
  let depth := pyCount entry '/' - (if pyEndsWith entry "/" then 1 else 0)
  let base := ((pySplit '/' (pyRstrip entry '/')).getLast?).getD ""
  let name := if pyEndsWith entry "/" then base ++ "/" else base
  pyIndent depth ++ name

/-- The truncation line appended when the full tree reaches `max_lines`. -/
def treeMarker (allLen max_lines : Nat) : String :=
  "  ... (" ++ toString (allLen - max_lines) ++ " more entries)"

/-- The rendering loop of `_build_tree_full`: `count` is the number of lines
already emitted; after each append, reaching `max_lines` lines appends the
truncation marker and stops. -/
def treeLoop (allLen max_lines : Nat) : List String → Nat → List String
  | [], _ => []
  | e :: rest, count =>
    renderEntry e ::
      (if count + 1 ≥ max_lines then [treeMarker allLen max_lines]
       else treeLoop allLen max_lines rest (count + 1))

/-- `_build_tree_full`: sorted directory entries followed by sorted file
entries (`sorted(dirs) + sorted(file_paths)`), rendered up to `max_lines`. -/
def _build_tree_full (dirs : List String) (file_paths : List String)
    (max_lines : Nat) : List String :=
  let all_entries := sortStrings dirs ++ sortStrings file_paths
  treeLoop all_entries.length max_lines all_entries 0

/-- A `collections.Counter` whose iteration order is key-insertion order. -/
def counterAdd (c : List (String × Nat)) (k : String) : List (String × Nat) :=
  if c.any (fun kv => kv.1 = k) then
    c.map (fun kv => if kv.1 = k then (kv.1, kv.2 + 1) else kv)
  else c ++ [(k, 1)]

def counterOf (ks : List String) : List (String × Nat) :=
  ks.foldl counterAdd []

/-- `Counter.most_common()`: stable sort by descending count. -/
def mostCommon (c : List (String × Nat)) : List (String × Nat) :=
  c.insertionSort (fun a b => b.2 ≤ a.2)

/-- `f"{typ}: {cnt}"` entries joined by `", "`. -/
def typeCountStr (c : List (String × Nat)) : String :=
  pyJoin ", " (c.map (fun kv => kv.1 ++ ": " ++ toString kv.2))

/-- `p.suffix or "(no_ext)"` on a full path. -/
def suffixOrNoExt (path : String) : String :=
  let s := suffixOf (_get_filename path)
  if s = "" then "(no_ext)" else s

/-- The per-top-level-directory block of `_build_tree_summary`
(lines 204-229 of the source). -/
def summaryDirBlock (file_paths : List String) (d : String) : List String :=
  let inDir := file_paths.filter (fun fpath =>
    match pathParts fpath with
    | p0 :: _ => p0 = d
    | [] => false)
  let file_types := counterOf ((inDir.filter (fun fpath => 2 ≤ (pathParts fpath).length)).map suffixOrNoExt)
  let subdirs := ((inDir.filter (fun fpath => 3 ≤ (pathParts fpath).length)).map
      (fun fpath => ((pathParts fpath).get? 1).getD "")).dedup
  let subdirLine :=
    if subdirs ≠ [] then
      let sample := pyJoin ", " ((sortStrings subdirs).take 5)
      let ellipsis := if 5 < subdirs.length then "..." else ""
      "  Sub-directories: " ++ toString subdirs.length ++ " (" ++ sample ++ ellipsis ++ ")"
    else "  Sub-directories: 0"
  let typeLine :=
    if file_types ≠ [] then
      let top_types := (mostCommon file_types).take 5
      let extra :=
        if 5 < file_types.length then
          ", ... (" ++ toString (file_types.map (fun kv => kv.2)).sum ++ " files)"
        else ""
      "  File types: " ++ typeCountStr top_types ++ extra
    else "  No files detected"
  ["", d ++ "/", subdirLine, typeLine]

/-- The loop over sorted top-level directories, with the
`if len(lines) > max_lines: ... break` check after each block. -/
def summaryDirLoop (file_paths : List String) (max_lines : Nat) :
    List String → Nat → List String
  | [], _ => []
  | d :: rest, count =>
    let block := summaryDirBlock file_paths d
    block ++
      (if count + block.length > max_lines then ["  ... (output truncated)"]
       else summaryDirLoop file_paths max_lines rest (count + block.length))

/-- The top-level-files block of `_build_tree_summary` (lines 192-202). -/
def summaryTopFilesBlock (top_level_files : List String) : List String :=
  if top_level_files ≠ [] then
    let sorted_top := sortStrings top_level_files
    ["", "Top-level files:"]
      ++ (sorted_top.take 30).map (fun fpath => "  " ++ fpath)
      ++ (if 30 < sorted_top.length then
            let remaining := sorted_top.drop 30
            let type_counts := counterOf (remaining.map suffixOrNoExt)
            ["  ... (" ++ toString remaining.length ++ " more: "
              ++ typeCountStr (mostCommon type_counts) ++ ")"]
          else [])
  else []

/-- `_build_tree_summary`.  The summary header literal reproduces the
source's bytes verbatim (the em dash is mojibake in the source file). -/
def _build_tree_summary (file_paths : List String) (max_lines : Nat) :
    List String :=
  let top_level_files := file_paths.filter (fun fpath => (pathParts fpath).length = 1)
  let top_level_dirs := ((file_paths.filter (fun fpath => 2 ≤ (pathParts fpath).length)).map
      (fun fpath => ((pathParts fpath).get? 0).getD "")).dedup
  let header := "[Summary â€” over 100 directories, showing top level breakdown]"
  let lines := header :: summaryTopFilesBlock top_level_files
  lines ++ summaryDirLoop file_paths max_lines (sortStrings top_level_dirs) lines.length

/-- The ancestor directory prefixes a path contributes to the `dirs` set
(`"/".join(parts[:i]) + "/"` for `1 ≤ i < len(parts)`). -/
def ancestorDirs (path : String) : List String :=
  let ps := pathParts path
  ((List.range ps.length).drop 1).map (fun i => pyJoin "/" (ps.take i) ++ "/")

/-- The distinct directory prefixes induced by a file list (the Python `dirs`
set; the count and the sorted rendering are insensitive to the order of this
list, so a deduplicated list is a faithful model of the set). -/
def dirsOf (files : List RepoFile) : List String :=
  (files.flatMap (fun f => ancestorDirs f.path)).dedup

/-- `build_directory_tree`: full mode unless there are more than 100 distinct
directory prefixes. -/
def build_directory_tree (files : List RepoFile) (max_lines : Nat := 150) : String :=
  let dirs := dirsOf files
  let file_paths := files.map RepoFile.path
  if dirs.length > 100 then pyJoin "\n" (_build_tree_summary file_paths max_lines)
  else pyJoin "\n" (_build_tree_full dirs file_paths max_lines)

/-! ## Context assembler (`truncate_content`, `collect_repo_context`) -/

def truncate_content (content : String) : String :=
  if content.length ≤ MAX_FILE_CHARS then content
  else pyTake content MAX_FILE_CHARS ++ "\n\n... [truncated]"

/-- `f.last_commit_timestamp or "unknown"` (Python `or`: an empty string is
falsy). -/
def displayTimestamp : Option String → String
  | some s => if s = "" then "unknown" else s
  | none => "unknown"

/-- `f.commit_count if f.commit_count is not None else "unknown"`. -/
def displayCount : Option Nat → String
  | some n => toString n
  | none => "unknown"

/-- The full per-file section (lines 297-302 of the source). -/
def fullSection (f : RepoFile) (content : String) : String :=
  "## File: " ++ f.path
    ++ "\nLast commit timestamp: " ++ displayTimestamp f.last_commit_timestamp
    ++ "\nCommit count: " ++ displayCount f.commit_count
    ++ "\n```\n" ++ content ++ "\n```\n"

/-- The final truncated section (line 307 of the source). -/
def cutSection (f : RepoFile) (content : String) (remaining : Nat) : String :=
  "## File: " ++ f.path ++ "\n```\n" ++ pyTake content (remaining - 200)
    ++ "\n... [truncated]\n```\n"

/-- The greedy packing loop (lines 291-311): `total` is `total_chars`.  The
result pairs each emitted section with the file it came from.  `remaining` is
a `Nat`: the source value can be a negative `int`, but it is then neither
`> 500` nor used for slicing, so truncation at zero is observationally
faithful. -/
def assembleLoop (total : Nat) : List RepoFile → List (RepoFile × String)
  | [] => []
  | f :: rest =>
    match f.content with
    | none => assembleLoop total rest
    | some c =>
      let content := truncate_content c
      let sec := fullSection f content
      if total + sec.length > MAX_CONTEXT_CHARS then
        let remaining := MAX_CONTEXT_CHARS - total
        if remaining > 500 then [(f, cutSection f content remaining)]
        else []
      else (f, sec) :: assembleLoop (total + sec.length) rest

/-- `parts[0]`: the directory-structure section. -/
def headSection (files : List RepoFile) : String :=
  "## Directory Structure\n```\n" ++ build_directory_tree files ++ "\n```\n"

/-- The enrichment performed by one `_fetch` task: the content fetch never
raises (`fetch_file_content` absorbs every failure into `None`), the metadata
fetch can raise the rate-limit error, in which case nothing is assigned. -/
def enrichOne (fetchContent : RepoFile → Option String)
    (fetchInfo : RepoFile → Except GitHubClientError (Option String × Option Nat))
    (f : RepoFile) : Except GitHubClientError RepoFile := do
  let info ← fetchInfo f
  pure { f with
    content := match fetchContent f with
      | some c => some c
      | none => f.content,
    last_commit_timestamp := info.1,
    commit_count := info.2 }

/-- `collect_repo_context`, with the two network calls as oracles.  A
rate-limit failure of any candidate's metadata fetch aborts the whole batch
(`asyncio.gather` re-raises it), so no digest is produced. -/
def collect_repo_context (files : List RepoFile)
    (fetchContent : RepoFile → Option String)
    (fetchInfo : RepoFile → Except GitHubClientError (Option String × Option Nat)) :
    Except GitHubClientError String := do
  let to_fetch := (filter_files files).take MAX_FILES_TO_FETCH
  let enriched ← to_fetch.mapM (enrichOne fetchContent fetchInfo)
  let head := headSection files
  pure (pyJoin "\n" (head :: (assembleLoop head.length enriched).map Prod.snd))

/-! ## Statements taken from the specification's words (for refinement
comparison), and concrete inputs used by witnesses and counterexamples -/

/-- Modelled from the spec: "lexicographically sort the **union** of directory
entries and file entries" — a single merged sort, unlike the source's
`sorted(dirs) + sorted(file_paths)`. -/
def treeFullSortedUnion (dirs : List String) (file_paths : List String)
    (max_lines : Nat) : List String :=
  let all_entries := sortStrings (dirs ++ file_paths)
  treeLoop all_entries.length max_lines all_entries 0

/-- A root-level file whose single path component is 79,969 characters long. -/
def longPathFile : RepoFile :=
  { path := String.mk (List.replicate 79969 'a'), size := 10 }

/-- A content-fetch oracle for which every fetch fails (absorbed as `none`). -/
def noContentFetch : RepoFile → Option String := fun _ => none

/-- A metadata-fetch oracle that always succeeds with no data. -/
def okInfoFetch : RepoFile → Except GitHubClientError (Option String × Option Nat) :=
  fun _ => .ok (none, none)

/-- A metadata-fetch oracle that always hits the rate limit. -/
def rlInfoFetch : RepoFile → Except GitHubClientError (Option String × Option Nat) :=
  fun _ => .error .rateLimited

/-! ## Helper lemmas -/

lemma sizeAdj_bounds (n : Nat) : -50 ≤ sizeAdj n ∧ sizeAdj n ≤ 30 := by
  unfold sizeAdj
  split_ifs <;> omega

lemma entryBonus_bounds (name : String) :
    0 ≤ entryBonus name ∧ entryBonus name ≤ 300 := by
  unfold entryBonus
  split_ifs <;> omega

lemma high_priority_stem_not_entry :
    ∀ n ∈ HIGH_PRIORITY_FILENAMES, pyLower (stemOf n) ∉ ENTRY_NAMES := by
  decide

/-- When the filename does not start with `README` (case-insensitively), the
tier together with the entry-point bonus never exceeds 800. -/
lemma tier_add_entry_le (path : String)
    (h : pyStartsWith (pyUpper (_get_filename path)) "README" = false) :
    tierOf path + entryBonus (_get_filename path) ≤ 800 := by
  have hb := entryBonus_bounds (_get_filename path)
  unfold tierOf
  dsimp only
  split_ifs with hR hH hM hC hS
  · rw [hR] at h; exact absurd h (by simp)
  · have h0 : entryBonus (_get_filename path) = 0 := by
      unfold entryBonus
      rw [if_neg (high_priority_stem_not_entry _ hH)]
    omega
  · omega
  · omega
  · omega
  · omega

/-- The tier of a source-code file is exactly 100 (the test-name bonus of
line 112 is discarded). -/
lemma tierOf_source (path : String)
    (h1 : pyStartsWith (pyUpper (_get_filename path)) "README" = false)
    (h2 : _get_filename path ∉ HIGH_PRIORITY_FILENAMES)
    (h3 : _get_filename path ∉ MEDIUM_PRIORITY_FILENAMES)
    (h4 : path ∉ MEDIUM_PRIORITY_FILENAMES)
    (h5 : _get_extension path ∉ CONFIG_EXTENSIONS)
    (h6 : _get_extension path ∈ SOURCE_EXTENSIONS) :
    tierOf path = 100 := by
  unfold tierOf
  dsimp only
  rw [h1]
  rw [if_neg (by simp), if_neg h2, if_neg (by tauto), if_neg h5, if_pos h6]

/-! ## Claims -/

/-- C10: for source-code files the score is independent of whether the
filename contains "test": the `score + 50` on line 112 discards its result,
so a test-named source file scores exactly like an otherwise-identical
non-test source file. -/
theorem c10_test_bonus_discarded (f g : RepoFile)
    (hf1 : pyStartsWith (pyUpper (_get_filename f.path)) "README" = false)
    (hf2 : _get_filename f.path ∉ HIGH_PRIORITY_FILENAMES)
    (hf3 : _get_filename f.path ∉ MEDIUM_PRIORITY_FILENAMES)
    (hf4 : f.path ∉ MEDIUM_PRIORITY_FILENAMES)
    (hf5 : _get_extension f.path ∉ CONFIG_EXTENSIONS)
    (hf6 : _get_extension f.path ∈ SOURCE_EXTENSIONS)
    (hg1 : pyStartsWith (pyUpper (_get_filename g.path)) "README" = false)
    (hg2 : _get_filename g.path ∉ HIGH_PRIORITY_FILENAMES)
    (hg3 : _get_filename g.path ∉ MEDIUM_PRIORITY_FILENAMES)
    (hg4 : g.path ∉ MEDIUM_PRIORITY_FILENAMES)
    (hg5 : _get_extension g.path ∉ CONFIG_EXTENSIONS)
    (hg6 : _get_extension g.path ∈ SOURCE_EXTENSIONS)
    (hdepth : (pathParts f.path).length = (pathParts g.path).length)
    (hsize : f.size = g.size)
    (hentry : entryBonus (_get_filename f.path) = entryBonus (_get_filename g.path))
    (htest : pyContains (pyLower (_get_filename f.path)) "test" = true)
    (hnotest : pyContains (pyLower (_get_filename g.path)) "test" = false) :
    _score_file f = _score_file g := by
  unfold _score_file
  rw [tierOf_source f.path hf1 hf2 hf3 hf4 hf5 hf6,
    tierOf_source g.path hg1 hg2 hg3 hg4 hg5 hg6, hdepth, hsize, hentry]

/-- Witness for C10 at a concrete pair of source files differing only in the
"test" substring of the filename. -/
theorem c10_witness :
    pyContains (pyLower (_get_filename "src/test_util.py")) "test" = true ∧
      _score_file { path := "src/test_util.py", size := 100 } =
        _score_file { path := "src/abcd_util.py", size := 100 } :=
  ⟨by decide,
   c10_test_bonus_discarded _ _ (by decide) (by decide) (by decide) (by decide)
     (by decide) (by decide) (by decide) (by decide) (by decide) (by decide)
     (by decide) (by decide) (by decide) (by decide) (by decide) (by decide)
     (by decide)⟩

/-- C4: `README.md` at the repository root scores strictly higher than every
file at the same depth whose name does not begin with `README`
(case-insensitively), for any README size up to 500,000 bytes and any size and
name of the competing file. -/
theorem c4_readme_outranks (rf cf : RepoFile)
    (hpath : rf.path = "README.md")
    (hsize : rf.size ≤ 500000)
    (hdepth : (pathParts cf.path).length = 1)
    (hnotreadme : pyStartsWith (pyUpper (_get_filename cf.path)) "README" = false) :
    _score_file cf < _score_file rf := by
  have hrf : 450 ≤ _score_file rf := by
    unfold _score_file
    rw [hpath]
    have ht : tierOf "README.md" = 1000 := by decide
    have hd : (pathParts "README.md").length = 1 := by decide
    have he : entryBonus (_get_filename "README.md") = 0 := by decide
    have hs := sizeAdj_bounds rf.size
    rw [ht, hd, he]
    omega
  have hcf : _score_file cf ≤ 330 := by
    unfold _score_file
    have ht := tier_add_entry_le cf.path hnotreadme
    have hs := sizeAdj_bounds cf.size
    rw [hdepth]
    omega
  omega

/-- Witness for C4: root `README.md` against root `main.py` (which enjoys both
the source-extension tier and the entry-point bonus). -/
theorem c4_witness :
    (pathParts "main.py").length = 1 ∧
      _score_file { path := "main.py", size := 100 } <
        _score_file { path := "README.md", size := 100 } :=
  ⟨by decide,
   c4_readme_outranks _ _ rfl (by decide) (by decide) (by decide)⟩

/-- C8: every file whose path contains a `node_modules` segment is excluded
by the filter pipeline, whatever its extension, filename or byte size. -/
theorem c8_node_modules_excluded (files : List RepoFile) (f : RepoFile)
    (h : "node_modules" ∈ pathParts f.path) : f ∉ filter_files files := by
  intro hmem
  have h1 : f ∈ files.filter keepFile :=
    (List.mem_insertionSort scoreGe).mp hmem
  have h2 : keepFile f = true := (List.mem_filter.mp h1).2
  have h3 : _is_in_skip_directory f.path = true := by
    unfold _is_in_skip_directory
    rw [List.any_eq_true]
    exact ⟨"node_modules", h, by decide⟩
  unfold keepFile at h2
  rw [h3] at h2
  simp at h2

/-- Witness for C8 at the spec's scenario input. -/
theorem c8_witness :
    "node_modules" ∈ pathParts "node_modules/x/y.js" ∧
      ({ path := "node_modules/x/y.js", size := 300 } : RepoFile) ∉
        filter_files [{ path := "README.md", size := 500 },
          { path := "node_modules/x/y.js", size := 300 }] :=
  ⟨by decide, c8_node_modules_excluded _ _ (by decide)⟩

/-- C9: filtering-and-ranking is idempotent: a second application of
`filter_files` returns exactly the list produced by the first. -/
theorem c9_filter_files_idempotent (files : List RepoFile) :
    filter_files (filter_files files) = filter_files files := by
  unfold filter_files
  have hfilter :
      ((files.filter keepFile).insertionSort scoreGe).filter keepFile =
        (files.filter keepFile).insertionSort scoreGe := by
    rw [List.filter_eq_self]
    intro a ha
    exact (List.mem_filter.mp ((List.mem_insertionSort scoreGe).mp ha)).2
  rw [hfilter]
  letI : IsTotal RepoFile scoreGe :=
    ⟨fun a b => (le_total (_score_file b) (_score_file a)).imp id id⟩
  letI : IsTrans RepoFile scoreGe :=
    ⟨fun _ _ _ hab hbc => le_trans hbc hab⟩
  exact (List.sorted_insertionSort scoreGe _).insertionSort_eq

/-- C5: the tree renderer switches mode exactly at the threshold: 100
distinct directory prefixes render in full mode, 101 in summary mode. -/
theorem c5_mode_boundary (files : List RepoFile) :
    ((dirsOf files).length = 100 →
      build_directory_tree files =
        pyJoin "\n" (_build_tree_full (dirsOf files) (files.map RepoFile.path) 150))
    ∧ ((dirsOf files).length = 101 →
      build_directory_tree files =
        pyJoin "\n" (_build_tree_summary (files.map RepoFile.path) 150)) := by
  constructor <;> intro h <;> simp [build_directory_tree, h]

/-- Witness for C5: file lists inducing exactly 100 and exactly 101 distinct
directory prefixes. -/
theorem c5_witness :
    (dirsOf ((List.range 100).map
        (fun i => { path := "d" ++ toString i ++ "/f", size := 1 }))).length = 100 ∧
    (dirsOf ((List.range 101).map
        (fun i => { path := "d" ++ toString i ++ "/f", size := 1 }))).length = 101 ∧
    build_directory_tree ((List.range 100).map
        (fun i => { path := "d" ++ toString i ++ "/f", size := 1 })) =
      pyJoin "\n" (_build_tree_full
        (dirsOf ((List.range 100).map
          (fun i => { path := "d" ++ toString i ++ "/f", size := 1 })))
        (((List.range 100).map
          (fun i => ({ path := "d" ++ toString i ++ "/f", size := 1 } : RepoFile))).map RepoFile.path)
        150) ∧
    build_directory_tree ((List.range 101).map
        (fun i => { path := "d" ++ toString i ++ "/f", size := 1 })) =
      pyJoin "\n" (_build_tree_summary
        (((List.range 101).map
          (fun i => ({ path := "d" ++ toString i ++ "/f", size := 1 } : RepoFile))).map RepoFile.path)
        150) :=
  ⟨by decide, by decide,
   (c5_mode_boundary _).1 (by decide),
   (c5_mode_boundary _).2 (by decide)⟩

/-- C6: in the packing loop, when the next candidate's full section would
exceed the budget: with strictly more than 500 characters remaining exactly
one truncated final section is emitted and no later candidate is included;
with 500 or fewer remaining the loop stops with no further section. -/
theorem c6_final_truncated_section (total : Nat) (f : RepoFile)
    (rest : List RepoFile) (c : String)
    (hc : f.content = some c)
    (hover : total + (fullSection f (truncate_content c)).length > MAX_CONTEXT_CHARS) :
    (MAX_CONTEXT_CHARS - total > 500 →
      assembleLoop total (f :: rest) =
        [(f, cutSection f (truncate_content c) (MAX_CONTEXT_CHARS - total))])
    ∧ (MAX_CONTEXT_CHARS - total ≤ 500 →
      assembleLoop total (f :: rest) = []) := by
  constructor <;> intro h <;>
    simp only [assembleLoop, hc, if_pos hover]
  · rw [if_pos h]
  · rw [if_neg (by omega)]

/-- Witness for C6: a 600-character candidate against budgets with 600
and with 200 characters remaining. -/
theorem c6_witness :
    (assembleLoop 79400
        [{ path := "f.py", size := 10,
           content := some (String.mk (List.replicate 600 'x')) }] =
      [({ path := "f.py", size := 10,
          content := some (String.mk (List.replicate 600 'x')) },
        cutSection
          { path := "f.py", size := 10,
            content := some (String.mk (List.replicate 600 'x')) }
          (truncate_content (String.mk (List.replicate 600 'x'))) 600)])
    ∧ (assembleLoop 79800
        [{ path := "f.py", size := 10,
           content := some (String.mk (List.replicate 600 'x')) }] = []) :=
  ⟨(c6_final_truncated_section 79400 _ [] _ rfl (by decide)).1 (by decide),
   (c6_final_truncated_section 79800 _ [] _ rfl (by decide)).2 (by decide)⟩

/-- Closed form of the full-tree rendering loop: all entries are rendered
when they fit, otherwise the first `max_lines` entries are rendered and the
omitted-entries marker is appended. -/
lemma treeLoop_closed_form (allLen max_lines : Nat) :
    ∀ (entries : List String) (count : Nat), count < max_lines →
      treeLoop allLen max_lines entries count =
        if entries.length + count < max_lines then entries.map renderEntry
        else (entries.take (max_lines - count)).map renderEntry
          ++ [treeMarker allLen max_lines] := by
  intro entries
  induction entries with
  | nil =>
    intro count hcount
    rw [if_pos (by simpa using hcount)]
    rfl
  | cons e rest ih =>
    intro count hcount
    rw [treeLoop]
    by_cases hstop : count + 1 ≥ max_lines
    · have hcount1 : count + 1 = max_lines := by omega
      rw [if_pos hstop, if_neg (by simp; omega)]
      have htake : max_lines - count = 1 := by omega
      rw [htake]
      simp
    · rw [if_neg hstop, ih (count + 1) (by omega)]
      by_cases hfit : rest.length + (count + 1) < max_lines
      · rw [if_pos hfit, if_pos (by simp; omega)]
        rfl
      · rw [if_neg hfit, if_neg (by simp; omega)]
        have htake : max_lines - count = (max_lines - (count + 1)) + 1 := by omega
        rw [htake]
        simp

/-- C3 (amended): in full mode the renderer lists the sorted directory
entries followed by the sorted file entries (two separately sorted groups,
not one merged sort), each line being the entry's final component indented
two spaces per directory level, stopping after `max_lines` lines with a
count of the omitted entries appended. -/
theorem c3_full_tree_two_sorted_groups (dirs file_paths : List String)
    (max_lines : Nat) (hpos : 0 < max_lines) :
    _build_tree_full dirs file_paths max_lines =
      (if (sortStrings dirs ++ sortStrings file_paths).length < max_lines then
        (sortStrings dirs ++ sortStrings file_paths).map renderEntry
      else
        ((sortStrings dirs ++ sortStrings file_paths).take max_lines).map renderEntry
          ++ [treeMarker (sortStrings dirs ++ sortStrings file_paths).length max_lines]) := by
  unfold _build_tree_full
  rw [treeLoop_closed_form _ _ _ 0 hpos]
  simp

/-- Witness for C3's amended statement at a concrete directory/file list. -/
theorem c3_witness :
    0 < 150 ∧
      _build_tree_full ["src/"] ["README.md", "src/main.py"] 150 =
        (if (sortStrings ["src/"] ++ sortStrings ["README.md", "src/main.py"]).length < 150 then
          (sortStrings ["src/"] ++ sortStrings ["README.md", "src/main.py"]).map renderEntry
        else
          ((sortStrings ["src/"] ++ sortStrings ["README.md", "src/main.py"]).take 150).map renderEntry
            ++ [treeMarker (sortStrings ["src/"] ++ sortStrings ["README.md", "src/main.py"]).length 150]) :=
  ⟨by decide, c3_full_tree_two_sorted_groups _ _ _ (by decide)⟩

/-- Counterexample for C3 as stated: rendering from `sorted(dirs) +
sorted(file_paths)` differs from rendering the lexicographically sorted
union (`src/` sorts after `README.md`, yet the code lists it first). -/
theorem c3_counterexample :
    _build_tree_full ["src/"] ["README.md", "src/main.py"] 150 ≠
      treeFullSortedUnion ["src/"] ["README.md", "src/main.py"] 150 := by
  decide

/-- Every value of the error type is the rate-limit error. -/
lemma githubClientError_eq (e : GitHubClientError) : e = .rateLimited := by
  cases e
  rfl

lemma except_error_of_not_isOk {β : Type} (r : Except GitHubClientError β)
    (h : r.isOk = false) : r = .error .rateLimited := by
  cases r with
  | error e => rw [githubClientError_eq e]
  | ok b => exact Bool.noConfusion h

lemma mapM_isOk_of_forall {α β : Type} (g : α → Except GitHubClientError β) :
    ∀ l : List α, (∀ x ∈ l, (g x).isOk = true) → ∃ l2, l.mapM g = .ok l2 := by
  intro l
  induction l with
  | nil => exact fun _ => ⟨[], rfl⟩
  | cons a l ih =>
    intro h
    obtain ⟨l2, hl2⟩ := ih (fun x hx => h x (List.mem_cons_of_mem a hx))
    have ha := h a (List.mem_cons_self a l)
    cases hga : g a with
    | error e =>
      rw [hga] at ha
      exact Bool.noConfusion ha
    | ok b =>
      refine ⟨b :: l2, ?_⟩
      rw [List.mapM_cons, hga, hl2]
      rfl

lemma mapM_not_isOk_of_mem {α β : Type} (g : α → Except GitHubClientError β) :
    ∀ (l : List α) (x : α), x ∈ l → (g x).isOk = false →
      (l.mapM g).isOk = false := by
  intro l
  induction l with
  | nil => intro x hx; exact absurd hx (List.not_mem_nil x)
  | cons a l ih =>
    intro x hx hbad
    rw [List.mapM_cons]
    cases hga : g a with
    | error e => rfl
    | ok b =>
      rcases List.mem_cons.mp hx with rfl | hx2
      · rw [hga] at hbad
        exact Bool.noConfusion hbad
      · cases hml : l.mapM g with
        | error e2 => rfl
        | ok l2 =>
          have h2 := ih x hx2 hbad
          rw [hml] at h2
          exact Bool.noConfusion h2

/-- An enrichment step never changes the path. -/
lemma enrichOne_path {fc : RepoFile → Option String}
    {fi : RepoFile → Except GitHubClientError (Option String × Option Nat)}
    {f g : RepoFile} (h : enrichOne fc fi f = .ok g) : g.path = f.path := by
  unfold enrichOne at h
  cases hfi : fi f with
  | error e =>
    rw [hfi] at h
    exact Except.noConfusion h
  | ok info =>
    rw [hfi] at h
    have h2 : ({ f with
        content := match fc f with
          | some c => some c
          | none => f.content,
        last_commit_timestamp := info.1,
        commit_count := info.2 } : RepoFile) = g := Except.ok.inj h
    rw [← h2]

/-- A failed content fetch leaves the content field untouched. -/
lemma enrichOne_content_none {fc : RepoFile → Option String}
    {fi : RepoFile → Except GitHubClientError (Option String × Option Nat)}
    {f g : RepoFile} (hfc : fc f = none)
    (h : enrichOne fc fi f = .ok g) : g.content = f.content := by
  unfold enrichOne at h
  cases hfi : fi f with
  | error e =>
    rw [hfi] at h
    exact Except.noConfusion h
  | ok info =>
    rw [hfi] at h
    have h2 : ({ f with
        content := match fc f with
          | some c => some c
          | none => f.content,
        last_commit_timestamp := info.1,
        commit_count := info.2 } : RepoFile) = g := Except.ok.inj h
    rw [← h2]
    simp only
    rw [hfc]

/-- Every emitted section comes from a file whose content is present. -/
lemma assembleLoop_content_isSome :
    ∀ (total : Nat) (fs : List RepoFile) (p : RepoFile × String),
      p ∈ assembleLoop total fs → p.1.content.isSome = true := by
  intro total fs
  induction fs generalizing total with
  | nil => intro p hp; exact absurd hp (List.not_mem_nil p)
  | cons f rest ih =>
    intro p hp
    rw [assembleLoop] at hp
    cases hc : f.content with
    | none =>
      rw [hc] at hp
      exact ih total p hp
    | some c =>
      rw [hc] at hp
      dsimp only at hp
      split at hp
      · split at hp
        · rcases List.mem_singleton.mp hp with rfl
          simp [hc]
        · exact absurd hp (List.not_mem_nil p)
      · rcases List.mem_cons.mp hp with rfl | hp2
        · simp [hc]
        · exact ih _ p hp2

/-- `collect_repo_context` is the bind of the enrichment pass with the pure
assembly of the digest. -/
lemma collect_repo_context_eq (files : List RepoFile)
    (fc : RepoFile → Option String)
    (fi : RepoFile → Except GitHubClientError (Option String × Option Nat)) :
    collect_repo_context files fc fi =
      (((filter_files files).take MAX_FILES_TO_FETCH).mapM (enrichOne fc fi)) >>=
        (fun enriched => pure (pyJoin "\n" (headSection files ::
          (assembleLoop (headSection files).length enriched).map Prod.snd))) := rfl

/-- C7: a rate-limit failure of any candidate's metadata fetch makes
`collect_repo_context` fail with the rate-limit `GitHubClientError` and no
digest is produced, while content-fetch failures are absorbed file-locally:
with no rate limit the batch succeeds, a file whose content fetch failed
keeps its previous (absent) content, and no section is ever emitted for a
file without content. -/
theorem c7_rate_limit_aborts (files : List RepoFile)
    (fetchContent : RepoFile → Option String)
    (fetchInfo : RepoFile → Except GitHubClientError (Option String × Option Nat)) :
    ((∃ f ∈ (filter_files files).take MAX_FILES_TO_FETCH,
        fetchInfo f = .error .rateLimited) →
      collect_repo_context files fetchContent fetchInfo = .error .rateLimited)
    ∧ ((∀ f ∈ (filter_files files).take MAX_FILES_TO_FETCH,
        (fetchInfo f).isOk = true) →
      (collect_repo_context files fetchContent fetchInfo).isOk = true)
    ∧ (∀ f g, fetchContent f = none →
        enrichOne fetchContent fetchInfo f = .ok g → g.content = f.content)
    ∧ (∀ total fs p, p ∈ assembleLoop total fs → p.1.content.isSome = true) := by
  refine ⟨?_, ?_, fun f g hfc h => enrichOne_content_none hfc h,
    assembleLoop_content_isSome⟩
  · rintro ⟨f, hf, hrl⟩
    have hbad : (enrichOne fetchContent fetchInfo f).isOk = false := by
      unfold enrichOne
      rw [hrl]
      rfl
    have hm := mapM_not_isOk_of_mem (enrichOne fetchContent fetchInfo) _ f hf hbad
    have herr := except_error_of_not_isOk _ hm
    rw [collect_repo_context_eq, herr]
    rfl
  · intro hall
    have hok : ∀ x ∈ (filter_files files).take MAX_FILES_TO_FETCH,
        (enrichOne fetchContent fetchInfo x).isOk = true := by
      intro x hx
      unfold enrichOne
      cases hfi : fetchInfo x with
      | error e =>
        have hbad := hall x hx
        rw [hfi] at hbad
        exact Bool.noConfusion hbad
      | ok info => rfl
    obtain ⟨l2, hl2⟩ := mapM_isOk_of_forall (enrichOne fetchContent fetchInfo) _ hok
    rw [collect_repo_context_eq, hl2]
    rfl

/-- Witness for C7: a rate-limited metadata oracle aborts the batch, while an
always-succeeding one yields a digest. -/
theorem c7_witness :
    collect_repo_context [{ path := "a.py", size := 10 }] noContentFetch rlInfoFetch
        = .error .rateLimited
    ∧ (collect_repo_context [{ path := "a.py", size := 10 }] noContentFetch okInfoFetch).isOk
        = true :=
  ⟨(c7_rate_limit_aborts _ _ _).1 ⟨{ path := "a.py", size := 10 }, by decide, rfl⟩,
   (c7_rate_limit_aborts _ _ _).2.1 (by decide)⟩

/-- Every emitted section comes from a file of the candidate list. -/
lemma assembleLoop_fst_mem :
    ∀ (total : Nat) (fs : List RepoFile) (p : RepoFile × String),
      p ∈ assembleLoop total fs → p.1 ∈ fs := by
  intro total fs
  induction fs generalizing total with
  | nil => intro p hp; exact absurd hp (List.not_mem_nil p)
  | cons f rest ih =>
    intro p hp
    rw [assembleLoop] at hp
    cases hc : f.content with
    | none =>
      rw [hc] at hp
      exact List.mem_cons_of_mem f (ih total p hp)
    | some c =>
      rw [hc] at hp
      dsimp only at hp
      split at hp
      · split at hp
        · rcases List.mem_singleton.mp hp with rfl
          exact List.mem_cons_self f rest
        · exact absurd hp (List.not_mem_nil p)
      · rcases List.mem_cons.mp hp with rfl | hp2
        · exact List.mem_cons_self f rest
        · exact List.mem_cons_of_mem f (ih _ p hp2)

/-- Every element of a successful `mapM` image comes from some element of the
input list. -/
lemma mapM_ok_mem {α β : Type} (g : α → Except GitHubClientError β) :
    ∀ (l : List α) (l2 : List β), l.mapM g = .ok l2 →
      ∀ y ∈ l2, ∃ x ∈ l, g x = .ok y := by
  intro l
  induction l with
  | nil =>
    intro l2 h y hy
    have h2 : ([] : List β) = l2 := Except.ok.inj h
    rw [← h2] at hy
    exact absurd hy (List.not_mem_nil y)
  | cons a l ih =>
    intro l2 h y hy
    rw [List.mapM_cons] at h
    cases hga : g a with
    | error e =>
      rw [hga] at h
      exact Except.noConfusion h
    | ok b =>
      rw [hga] at h
      cases hml : l.mapM g with
      | error e2 =>
        rw [hml] at h
        exact Except.noConfusion h
      | ok l2x =>
        rw [hml] at h
        have h2 : b :: l2x = l2 := Except.ok.inj h
        rw [← h2] at hy
        rcases List.mem_cons.mp hy with rfl | hy2
        · exact ⟨a, List.mem_cons_self a l, hga⟩
        · obtain ⟨x, hx, hgx⟩ := ih l2x hml y hy2
          exact ⟨x, List.mem_cons_of_mem a hx, hgx⟩

/-- Every entry of an untruncated rendering pass appears as a rendered
line. -/
lemma mem_treeLoop (allLen max_lines : Nat) (e : String) :
    ∀ (entries : List String) (count : Nat), e ∈ entries →
      entries.length + count ≤ max_lines →
      renderEntry e ∈ treeLoop allLen max_lines entries count := by
  intro entries
  induction entries with
  | nil => intro count he; exact absurd he (List.not_mem_nil e)
  | cons e2 rest ih =>
    intro count he hlen
    rw [treeLoop]
    rcases List.mem_cons.mp he with rfl | he2
    · exact List.mem_cons_self _ _
    · have hrest : 1 ≤ rest.length := List.length_pos.mpr (List.ne_nil_of_mem he2)
      have hlt : ¬ (count + 1 ≥ max_lines) := by
        simp only [List.length_cons] at hlen
        omega
      rw [if_neg hlt]
      refine List.mem_cons_of_mem _ (ih (count + 1) he2 ?_)
      simp only [List.length_cons] at hlen
      omega

/-- C2 (amended): in full mode with an untruncated tree (at most 100 distinct
directory prefixes and at most `maxLines` total entries), the digest's tree
section is the full rendering, and every file that received a section appears
in it as a leaf line showing its final path component at its depth's
indentation (`renderEntry`); the full path itself appears verbatim only for
root-level files. -/
theorem c2_sections_rendered_in_tree (files : List RepoFile)
    (fetchContent : RepoFile → Option String)
    (fetchInfo : RepoFile → Except GitHubClientError (Option String × Option Nat))
    (enriched : List RepoFile) (p : RepoFile × String)
    (henr : ((filter_files files).take MAX_FILES_TO_FETCH).mapM
      (enrichOne fetchContent fetchInfo) = .ok enriched)
    (hfull : (dirsOf files).length ≤ 100)
    (hfit : (dirsOf files).length + files.length ≤ 150)
    (hp : p ∈ assembleLoop (headSection files).length enriched) :
    build_directory_tree files =
      pyJoin "\n" (_build_tree_full (dirsOf files) (files.map RepoFile.path) 150)
    ∧ renderEntry p.1.path ∈
        _build_tree_full (dirsOf files) (files.map RepoFile.path) 150 := by
  constructor
  · have hdef : build_directory_tree files =
        if (dirsOf files).length > 100 then
          pyJoin "\n" (_build_tree_summary (files.map RepoFile.path) 150)
        else pyJoin "\n" (_build_tree_full (dirsOf files) (files.map RepoFile.path) 150) := rfl
    rw [hdef, if_neg (by omega)]
  · have h1 : p.1 ∈ enriched := assembleLoop_fst_mem _ _ _ hp
    obtain ⟨x, hx, hgx⟩ := mapM_ok_mem _ _ _ henr p.1 h1
    have hpath : p.1.path = x.path := enrichOne_path hgx
    have hx2 : x ∈ filter_files files := List.mem_of_mem_take hx
    have hx3 : x ∈ files.filter keepFile := (List.mem_insertionSort scoreGe).mp hx2
    have hx4 : x ∈ files := List.mem_of_mem_filter hx3
    have hx5 : x.path ∈ sortStrings (files.map RepoFile.path) :=
      (List.mem_insertionSort _).mpr (List.mem_map_of_mem RepoFile.path hx4)
    have hx6 : x.path ∈ sortStrings (dirsOf files) ++ sortStrings (files.map RepoFile.path) :=
      List.mem_append_right _ hx5
    have hlen : (sortStrings (dirsOf files) ++ sortStrings (files.map RepoFile.path)).length + 0
        ≤ 150 := by
      rw [List.length_append]
      unfold sortStrings
      rw [List.length_insertionSort, List.length_insertionSort, List.length_map]
      omega
    rw [hpath]
    exact mem_treeLoop _ _ _ _ 0 hx6 hlen

/-- Witness for C2's amended statement: a root-level `README.md` whose
section's path is rendered (for a root file the leaf line is the path
itself). -/
theorem c2_witness :
    build_directory_tree [{ path := "README.md", size := 10 }] =
      pyJoin "\n" (_build_tree_full (dirsOf [{ path := "README.md", size := 10 }])
        ([({ path := "README.md", size := 10 } : RepoFile)].map RepoFile.path) 150)
    ∧ renderEntry (({ path := "README.md", size := 10, content := some "hi" } : RepoFile),
        fullSection { path := "README.md", size := 10, content := some "hi" }
          (truncate_content "hi")).1.path ∈
        _build_tree_full (dirsOf [{ path := "README.md", size := 10 }])
          ([({ path := "README.md", size := 10 } : RepoFile)].map RepoFile.path) 150 :=
  c2_sections_rendered_in_tree [{ path := "README.md", size := 10 }]
    (fun _ => some "hi") okInfoFetch
    [{ path := "README.md", size := 10, content := some "hi" }]
    ({ path := "README.md", size := 10, content := some "hi" },
      fullSection { path := "README.md", size := 10, content := some "hi" }
        (truncate_content "hi"))
    rfl (by decide) (by decide) (by decide)

/-- Counterexample for C2 as stated: the digest for a lone `src/main.py` has
a `## File: src/main.py` section, but the path `src/main.py` does not occur
verbatim anywhere in the directory-structure section (the tree renders only
the basename `main.py`, indented). -/
theorem c2_counterexample :
    ∃ d, collect_repo_context [{ path := "src/main.py", size := 10 }]
        (fun _ => some "x") okInfoFetch = .ok d
      ∧ pyContains d "## File: src/main.py" = true
      ∧ pyContains (headSection [{ path := "src/main.py", size := 10 }])
          "src/main.py" = false := by
  exact ⟨"## Directory Structure\n```\nsrc/\n  main.py\n```\n\n## File: src/main.py\nLast commit timestamp: unknown\nCommit count: unknown\n```\nx\n```\n",
    rfl, by decide, by decide⟩

/-! ### Computation lemmas for a one-component path of `n` copies of `'a'` -/

lemma splitChar_of_not_mem (sep : Char) (l : List Char) (h : sep ∉ l) :
    splitChar sep l = [l] := by
  induction l with
  | nil => rfl
  | cons c cs ih =>
    have hc : ¬ (c = sep) := fun hh => h (hh ▸ List.mem_cons_self c cs)
    rw [splitChar, if_neg hc, ih (fun hm => h (List.mem_cons_of_mem c hm))]

lemma not_mem_replicate_of_ne {a c : Char} (h : a ≠ c) (n : Nat) :
    a ∉ List.replicate n c :=
  fun hm => h (List.eq_of_mem_replicate hm)

lemma aRep_ne_of_short (n : Nat) (s : String) (hs : s.data.length < n) :
    String.mk (List.replicate n 'a') ≠ s := by
  intro hh
  have hl : (List.replicate n 'a').length = s.data.length :=
    congrArg (fun t : String => t.data.length) hh
  rw [List.length_replicate] at hl
  omega

lemma pathParts_aRep (n : Nat) (hn : 0 < n) :
    pathParts (String.mk (List.replicate n 'a')) =
      [String.mk (List.replicate n 'a')] := by
  unfold pathParts pySplit
  rw [show (String.mk (List.replicate n 'a')).data = List.replicate n 'a' from rfl,
    splitChar_of_not_mem '/' _ (not_mem_replicate_of_ne (by decide) n)]
  have h1 : String.mk (List.replicate n 'a') ≠ "" :=
    aRep_ne_of_short n "" (by simpa using hn)
  have h2 : String.mk (List.replicate n 'a') ≠ "." := by
    intro hh
    have hd : List.replicate n 'a' = ['.'] := congrArg String.data hh
    have hm : ('.' : Char) ∈ List.replicate n 'a' := by
      rw [hd]
      exact List.mem_cons_self _ _
    exact absurd (List.eq_of_mem_replicate hm) (by decide)
  simp [List.filter, h1, h2]

lemma not_suffix_replicate (e : List Char) (x : Char) (hx : x ∈ e)
    (hne : x ≠ 'a') (n : Nat) :
    decide (e <:+ List.replicate n 'a') = false := by
  rw [decide_eq_false_iff_not]
  intro hsuf
  have hm : x ∈ List.replicate n 'a' := hsuf.sublist.subset hx
  exact absurd (List.eq_of_mem_replicate hm) hne

lemma pyLower_aRep (n : Nat) :
    pyLower (String.mk (List.replicate n 'a')) =
      String.mk (List.replicate n 'a') := by
  unfold pyLower
  rw [show (String.mk (List.replicate n 'a')).data = List.replicate n 'a' from rfl,
    List.map_replicate, show Char.toLower 'a' = 'a' from by decide]

lemma has_skip_extension_aRep (n : Nat) :
    _has_skip_extension (String.mk (List.replicate n 'a')) = false := by
  unfold _has_skip_extension
  rw [List.any_eq_false]
  intro e he
  have hdot : '.' ∈ e.data := by
    revert e
    decide
  intro hext
  rw [pyEndsWith, pyLower_aRep n] at hext
  rw [show (String.mk (List.replicate n 'a')).data = List.replicate n 'a' from rfl] at hext
  rw [not_suffix_replicate e.data '.' hdot (by decide) n] at hext
  exact Bool.noConfusion hext

lemma contains_aRep_short (l : List String) (n : Nat)
    (hshort : ∀ s ∈ l, s.data.length < n) :
    l.contains (String.mk (List.replicate n 'a')) = false := by
  have hnm : ¬ String.mk (List.replicate n 'a') ∈ l := by
    intro hm
    have h2 := hshort _ hm
    rw [show (String.mk (List.replicate n 'a')).data = List.replicate n 'a' from rfl,
      List.length_replicate] at h2
    omega
  simpa using hnm

lemma is_in_skip_directory_aRep (n : Nat) (hn : 20 ≤ n) :
    _is_in_skip_directory (String.mk (List.replicate n 'a')) = false := by
  unfold _is_in_skip_directory
  rw [pathParts_aRep n (by omega)]
  have hc : SKIP_DIRECTORIES.contains (String.mk (List.replicate n 'a')) = false :=
    contains_aRep_short _ n (by
      have hb : ∀ s ∈ SKIP_DIRECTORIES, s.data.length < 20 := by decide
      intro s hs
      exact lt_of_lt_of_le (hb s hs) hn)
  simp only [List.any_cons, List.any_nil, Bool.or_false]
  exact hc

lemma get_filename_aRep (n : Nat) (hn : 0 < n) :
    _get_filename (String.mk (List.replicate n 'a')) =
      String.mk (List.replicate n 'a') := by
  unfold _get_filename
  rw [pathParts_aRep n hn]
  rfl

lemma keepFile_longPathFile : keepFile longPathFile = true := by
  unfold keepFile longPathFile
  rw [is_in_skip_directory_aRep 79969 (by omega),
    has_skip_extension_aRep 79969, get_filename_aRep 79969 (by omega)]
  have hfn : SKIP_FILENAMES.contains (String.mk (List.replicate 79969 'a')) = false :=
    contains_aRep_short _ 79969 (by
      have hb : ∀ s ∈ SKIP_FILENAMES, s.data.length < 20 := by decide
      intro s hs
      exact lt_of_lt_of_le (hb s hs) (by omega))
  rw [hfn]
  rfl

lemma dropWhile_replicate_of_ne {c : Char} (p : Char → Bool) (hp : p c = false) :
    ∀ n, List.dropWhile p (List.replicate n c) = List.replicate n c := by
  intro n
  cases n with
  | zero => rfl
  | succ m =>
    rw [List.replicate_succ, List.dropWhile_cons, hp]
    simp

lemma renderEntry_aRep (n : Nat) (hn : 0 < n) :
    renderEntry (String.mk (List.replicate n 'a')) =
      pyIndent 0 ++ String.mk (List.replicate n 'a') := by
  unfold renderEntry
  have hends : pyEndsWith (String.mk (List.replicate n 'a')) "/" = false := by
    rw [pyEndsWith]
    exact not_suffix_replicate _ '/' (List.mem_cons_self _ _) (by decide) n
  have hcount : pyCount (String.mk (List.replicate n 'a')) '/' = 0 := by
    rw [pyCount]
    rw [show (String.mk (List.replicate n 'a')).data = List.replicate n 'a' from rfl]
    rw [List.count_replicate]
    simp
  have hstrip : pyRstrip (String.mk (List.replicate n 'a')) '/' =
      String.mk (List.replicate n 'a') := by
    unfold pyRstrip
    rw [show (String.mk (List.replicate n 'a')).data = List.replicate n 'a' from rfl,
      List.reverse_replicate,
      dropWhile_replicate_of_ne _ (by decide) n, List.reverse_replicate]
  rw [hends, hcount, hstrip]
  rw [pySplit,
    show (String.mk (List.replicate n 'a')).data = List.replicate n 'a' from rfl,
    splitChar_of_not_mem '/' _ (not_mem_replicate_of_ne (by decide) n)]
  rfl

lemma ancestorDirs_aRep : ancestorDirs (String.mk (List.replicate 79969 'a')) = [] := by
  unfold ancestorDirs
  rw [pathParts_aRep 79969 (by omega)]
  rfl

lemma dirsOf_longPathFile : dirsOf [longPathFile] = [] := by
  unfold dirsOf
  have h1 : [longPathFile].flatMap (fun f => ancestorDirs f.path) =
      ancestorDirs longPathFile.path ++ [] := rfl
  rw [h1, show longPathFile.path = String.mk (List.replicate 79969 'a') from rfl,
    ancestorDirs_aRep]
  rfl

lemma tree_longPathFile :
    build_directory_tree [longPathFile] =
      pyIndent 0 ++ String.mk (List.replicate 79969 'a') := by
  have hdef : build_directory_tree [longPathFile] =
      if (dirsOf [longPathFile]).length > 100 then
        pyJoin "\n" (_build_tree_summary ([longPathFile].map RepoFile.path) 150)
      else pyJoin "\n"
        (_build_tree_full (dirsOf [longPathFile]) ([longPathFile].map RepoFile.path) 150) := rfl
  rw [hdef, dirsOf_longPathFile, if_neg (by simp)]
  have hmap : [longPathFile].map RepoFile.path = [String.mk (List.replicate 79969 'a')] := rfl
  rw [hmap]
  have hfull : _build_tree_full [] [String.mk (List.replicate 79969 'a')] 150 =
      [renderEntry (String.mk (List.replicate 79969 'a'))] := rfl
  rw [hfull, renderEntry_aRep 79969 (by omega)]
  rfl

/-- C1 fails on the code: a single file whose one path component has 79,969
characters yields a digest of exactly 80,001 characters — the tree section is
emitted unconditionally, regardless of the budget (and the `"\n".join`
separators are not counted against `total_chars` either). -/
theorem c1_budget_exceeded :
    ∃ d, collect_repo_context [longPathFile] noContentFetch okInfoFetch = .ok d
      ∧ MAX_CONTEXT_CHARS < d.length ∧ d.length = 80001 := by
  have hff : filter_files [longPathFile] = [longPathFile] := by
    unfold filter_files
    rw [List.filter_cons, keepFile_longPathFile]
    rfl
  have hcoll : collect_repo_context [longPathFile] noContentFetch okInfoFetch =
      .ok (headSection [longPathFile]) := by
    rw [collect_repo_context_eq, hff]
    rfl
  refine ⟨headSection [longPathFile], hcoll, ?_⟩
  have hhead : headSection [longPathFile] =
      "## Directory Structure\n```\n"
        ++ build_directory_tree [longPathFile] ++ "\n```\n" := rfl
  have hlen : (headSection [longPathFile]).length = 80001 := by
    rw [hhead, tree_longPathFile, String.length_append, String.length_append,
      String.length_append]
    rw [show ("## Directory Structure\n```\n" : String).length = 27 from rfl,
      show ("\n```\n" : String).length = 5 from rfl,
      show (pyIndent 0).length = 0 from rfl,
      show (String.mk (List.replicate 79969 'a')).length =
        (List.replicate 79969 'a').length from rfl,
      List.length_replicate]
  rw [hlen]
  exact ⟨by norm_num [MAX_CONTEXT_CHARS], rfl⟩

end RepoProc
